import Mathlib

/-!
# FPE context registry (`voltage-real-dynamic.go`, `voltage_library.go`)

A shallow embedding of the cgo wrapper around the Voltage format-preserving
encryption engine and of the process-wide registry built on it.

* The native engine (`veapi.h`, `vefpe.h`) is not part of the repository; it is a
  parameter (`Native`) of every definition, taken as deterministic functions of the
  arguments the wrapper passes.
* The global variables of the Go package (`fpeStore`) and everything the wrapper
  does to the outside (the native calls it makes, in order) are carried in an
  explicit `World`.
* `fpeStoreLock` is not modelled: every operation is executed on its own, from
  start to end, which is what holding the lock guarantees for the store. Nothing
  is said about operations that run at the same time.
* The Go part of `voltage_library.go` is the same text as that of
  `voltage-real-dynamic.go`; its C part is in a header outside the repository, so
  the C functions are those of `voltage-real-dynamic.go`.
* Allocations other than that of the context struct (`C.CString`, `strdup`) are
  taken to succeed.
-/

namespace Voltage

/-! ## Strings and pointers -/

/-- A Go `string`: a finite sequence of bytes (any bytes, NUL included). -/
abbrev GoString := List UInt8

/-- The bytes (UTF-8) of a string literal of the source. -/
def lit (s : String) : GoString := s.data.flatMap String.utf8EncodeChar

/-- A `char*`: `none` is NULL, `some m` is a pointer, given by the bytes `m` stored
from the pointed address on. -/
abbrev CharPtr := Option (List UInt8)

/-- The C string stored at a pointer: the bytes before the first NUL. -/
def cString (m : List UInt8) : List UInt8 :=
  match m with
  | [] => []
  | b :: rest => if b = 0 then [] else b :: cString rest

/-- `strlen`: number of bytes before the first NUL. -/
def strlen (m : List UInt8) : Nat := (cString m).length

/-- `strdup`: a fresh copy of the bytes before the first NUL, NUL-terminated. -/
def strdup (m : List UInt8) : CharPtr := some (cString m ++ [0])

/-- `C.CString`: a C copy of all the bytes of the Go string, followed by a NUL. -/
def C.CString (s : GoString) : CharPtr := some (s ++ [0])

/-- `C.GoString`: the bytes before the first NUL; the empty string for NULL. -/
def C.GoString (p : CharPtr) : GoString :=
  match p with
  | none => []
  | some m => cString m

/-! ## The native engine -/

/-- The fields of `VeLibCtxParams` that `CreateVoltageFPEContext` assigns. -/
structure VeLibCtxParams where
  policyURL : CharPtr
  trustStorePath : CharPtr
  fileCachePath : CharPtr
  clientIdProduct : CharPtr
  clientIdProductVersion : CharPtr
  deriving DecidableEq, Repr

/-- A library-context handle. The engine's handle is opaque; it is identified here
by the context struct whose `libctx` field received it (`ctx`, the serial number of
that struct's allocation) and by the parameters it was created from. -/
structure VeLibCtx where
  ctx : Nat
  params : VeLibCtxParams
  deriving DecidableEq, Repr

/-- The fields of `VeFPEParams` that `CreateVoltageFPEContext` assigns. -/
structure VeFPEParams where
  protect : Int
  access : Int
  identity : CharPtr
  sharedSecret : CharPtr
  format : CharPtr
  deriving DecidableEq, Repr

/-- A transform handle: the library context it was created in and its parameters. -/
structure VeFPE where
  libctx : VeLibCtx
  params : VeFPEParams
  deriving DecidableEq, Repr

/-- The native side, which the repository only calls: the engine entry points with
the values they return (a status, `0` for success, and for the two transforms the
bytes written to the output buffer, whose number is the reported size), the
`...Defaults` initialisers of `veapi.h`, and whether the allocation of the context
struct with a given serial number succeeds. -/
structure Native where
  malloc : Nat → Bool
  VeLibCtxParamsDefaults : VeLibCtxParams
  VeFPEParamsDefaults : VeFPEParams
  VeCreateLibCtx : VeLibCtxParams → Int
  VeCreateFPE : VeLibCtx → VeFPEParams → Int
  VeProtect : VeFPE → List UInt8 → Nat → Int × List UInt8
  VeAccess : VeFPE → List UInt8 → Nat → Int × List UInt8

/-- One native call made by the wrapper, with its arguments and its result. -/
inductive Call where
  | malloc (ctx : Nat) (ok : Bool)
  | VeCreateLibCtx (h : VeLibCtx) (status : Int)
  | VeCreateFPE (h : VeFPE) (status : Int)
  | VeProtect (h : VeFPE) (plaintext : List UInt8) (status : Int)
  | VeAccess (h : VeFPE) (ciphertext : List UInt8) (status : Int)
  | VeDestroyFPE (h : VeFPE)
  | VeDestroyLibCtx (h : VeLibCtx)
  | free (ctx : Nat)
  deriving DecidableEq, Repr

/-! ## The wrapper's data -/

/-- The C struct `VoltageFPEContext`, with the serial number of its allocation. -/
structure VoltageFPEContext where
  addr : Nat
  libctx : VeLibCtx
  fpeProtect : VeFPE
  fpeAccess : VeFPE
  deriving DecidableEq, Repr

/-- The Go struct `VoltageFPE`. Its `ctx` is never nil: `NewVoltageFPE`, the only
place that builds one, panics instead. -/
structure VoltageFPE where
  ctx : VoltageFPEContext
  deriving DecidableEq, Repr

/-- A Go `error` value made by `fmt.Errorf`: its message. -/
structure GoError where
  msg : GoString
  deriving DecidableEq, Repr

/-- How a call ends: it returns a value, it panics, or the native code has left
the behaviour C defines (a NULL dereference, a store outside an array). -/
inductive Outcome (α : Type) where
  | returned (value : α)
  | panicked (msg : GoString)
  | undefined
  deriving DecidableEq, Repr

/-- Apply a function to the returned value. -/
def Outcome.map {α β : Type} (f : α → β) : Outcome α → Outcome β
  | .returned a => .returned (f a)
  | .panicked m => .panicked m
  | .undefined => .undefined

/-- The state of the process: the package variable `fpeStore` (a Go map, kept as an
association list; the order of the list is the order in which `range` visits it),
the serial number of the next context allocation, and the native calls made so
far, oldest first. -/
structure World where
  fpeStore : List (GoString × VoltageFPE)
  next : Nat
  trace : List Call
  deriving DecidableEq, Repr

/-- The process at start: `fpeStore = make(map[string]*VoltageFPE)`. -/
def World.init : World := ⟨[], 0, []⟩

/-- Record a native call. -/
def World.log (w : World) (c : Call) : World := { w with trace := w.trace ++ [c] }

/-- Map lookup `m[k]` (value and `ok`). -/
def mapGet (m : List (GoString × VoltageFPE)) (k : GoString) : Option VoltageFPE :=
  match m with
  | [] => none
  | e :: rest => if e.1 = k then some e.2 else mapGet rest k

/-- Map assignment `m[k] = v`: the entry of `k`, if any, is replaced. -/
def mapSet (m : List (GoString × VoltageFPE)) (k : GoString) (v : VoltageFPE) :
    List (GoString × VoltageFPE) :=
  (k, v) :: m.filter (fun e => e.1 ≠ k)

/-! ## The C part of `voltage-real-dynamic.go` -/

/-- `CreateVoltageFPEContext` (lines 19-56). -/
def CreateVoltageFPEContext (N : Native) (w : World)
    (policyURL trustStorePath cachePath identity sharedSecret format : CharPtr) :
    World × Option VoltageFPEContext :=
  let a := w.next
  let w0 := ({ w with next := a + 1 } : World).log (Call.malloc a (N.malloc a))
  if N.malloc a = false then (w0, none) else
  let args : VeLibCtxParams :=
    { N.VeLibCtxParamsDefaults with
      policyURL := policyURL
      trustStorePath := trustStorePath
      fileCachePath := cachePath
      clientIdProduct := some (lit "VoltageCGO" ++ [0])
      clientIdProductVersion := some (lit "1.0" ++ [0]) }
  let libctx : VeLibCtx := ⟨a, args⟩
  let status := N.VeCreateLibCtx args
  let w1 := w0.log (Call.VeCreateLibCtx libctx status)
  if status ≠ 0 then (w1, none) else
  let fpeParams : VeFPEParams :=
    { N.VeFPEParamsDefaults with
      protect := 1
      identity := identity
      sharedSecret := sharedSecret
      format := format }
  let fpeProtect : VeFPE := ⟨libctx, fpeParams⟩
  let status := N.VeCreateFPE libctx fpeParams
  let w2 := w1.log (Call.VeCreateFPE fpeProtect status)
  if status ≠ 0 then (w2, none) else
  let fpeParams : VeFPEParams := { fpeParams with protect := 0, access := 1 }
  let fpeAccess : VeFPE := ⟨libctx, fpeParams⟩
  let status := N.VeCreateFPE libctx fpeParams
  let w3 := w2.log (Call.VeCreateFPE fpeAccess status)
  if status ≠ 0 then (w3, none) else
  (w3, some ⟨a, libctx, fpeProtect, fpeAccess⟩)

/-- `VoltageProtect` (lines 58-72). The engine writes its output at the start of
the 300-byte static buffer; the wrapper stores a NUL right after it, which is a
store outside the array when the reported size is 300 or more. -/
def VoltageProtect (N : Native) (w : World) (ctx : VoltageFPEContext) (input : CharPtr) :
    World × Outcome CharPtr :=
  match input with
  | none => (w, .undefined)
  | some input =>
    let plaintext := input.take (strlen input)
    let r := N.VeProtect ctx.fpeProtect plaintext 300
    let w1 := w.log (Call.VeProtect ctx.fpeProtect plaintext r.1)
    if r.1 ≠ 0 then (w1, .returned none)
    else if r.2.length < 300 then (w1, .returned (strdup (r.2 ++ [0])))
    else (w1, .undefined)

/-- `VoltageAccess` (lines 74-88). -/
def VoltageAccess (N : Native) (w : World) (ctx : VoltageFPEContext) (ciphertext : CharPtr) :
    World × Outcome CharPtr :=
  match ciphertext with
  | none => (w, .undefined)
  | some ciphertext =>
    let input := ciphertext.take (strlen ciphertext)
    let r := N.VeAccess ctx.fpeAccess input 300
    let w1 := w.log (Call.VeAccess ctx.fpeAccess input r.1)
    if r.1 ≠ 0 then (w1, .returned none)
    else if r.2.length < 300 then (w1, .returned (strdup (r.2 ++ [0])))
    else (w1, .undefined)

/-- `DestroyVoltageFPEContext` (lines 90-96). -/
def DestroyVoltageFPEContext (w : World) (ctx : Option VoltageFPEContext) : World :=
  match ctx with
  | none => w
  | some ctx =>
    let w1 := w.log (Call.VeDestroyFPE ctx.fpeProtect)
    let w2 := w1.log (Call.VeDestroyFPE ctx.fpeAccess)
    let w3 := w2.log (Call.VeDestroyLibCtx ctx.libctx)
    w3.log (Call.free ctx.addr)

/-! ## The Go part -/

/-- `NewVoltageFPE` (lines 155-168). -/
def NewVoltageFPE (N : Native) (w : World)
    (policyURL trustPath cachePath identity secret format : GoString) :
    World × Outcome VoltageFPE :=
  match CreateVoltageFPEContext N w (C.CString policyURL) (C.CString trustPath)
      (C.CString cachePath) (C.CString identity) (C.CString secret) (C.CString format) with
  | (w1, none) => (w1, .panicked (lit "failed to init Voltage FPE context"))
  | (w1, some cCtx) => (w1, .returned ⟨cCtx⟩)

/-- `(*VoltageFPE).Protect` (lines 170-173). -/
def VoltageFPE.Protect (N : Native) (w : World) (v : VoltageFPE) (data : GoString) :
    World × Outcome GoString :=
  let r := VoltageProtect N w v.ctx (C.CString data)
  (r.1, r.2.map C.GoString)

/-- `(*VoltageFPE).Access` (lines 175-178). -/
def VoltageFPE.Access (N : Native) (w : World) (v : VoltageFPE) (ciphertext : GoString) :
    World × Outcome GoString :=
  let r := VoltageAccess N w v.ctx (C.CString ciphertext)
  (r.1, r.2.map C.GoString)

/-- `(*VoltageFPE).Close` (lines 180-182). -/
def VoltageFPE.Close (w : World) (v : VoltageFPE) : World :=
  DestroyVoltageFPEContext w (some v.ctx)

/-- `RegisterFPE` (lines 184-192). -/
def RegisterFPE (N : Native) (w : World)
    (id policyURL trustPath cachePath identity secret format : GoString) :
    World × Outcome (Option GoError) :=
  match NewVoltageFPE N w policyURL trustPath cachePath identity secret format with
  | (w1, .returned fpe) => ({ w1 with fpeStore := mapSet w1.fpeStore id fpe }, .returned none)
  | (w1, .panicked m) => (w1, .panicked m)
  | (w1, .undefined) => (w1, .undefined)

/-- `DeleteAllFPEs` (lines 194-202). -/
def DeleteAllFPEs (w : World) : World :=
  let w1 := w.fpeStore.foldl (fun acc e => e.2.Close acc) w
  { w1 with fpeStore := [] }

/-- The error of a failed lookup: `fmt.Errorf("FPE with id '%s' not found", id)`. -/
def notFound (id : GoString) : GoError :=
  ⟨lit "FPE with id '" ++ id ++ lit "' not found"⟩

/-- `EncryptByID` (lines 204-213). -/
def EncryptByID (N : Native) (w : World) (id data : GoString) :
    World × Outcome (GoString × Option GoError) :=
  match mapGet w.fpeStore id with
  | none => (w, .returned ([], some (notFound id)))
  | some fpe =>
    let r := fpe.Protect N w data
    (r.1, r.2.map (fun s => (s, none)))

/-- `DecryptByID` (lines 215-224). -/
def DecryptByID (N : Native) (w : World) (id cipher : GoString) :
    World × Outcome (GoString × Option GoError) :=
  match mapGet w.fpeStore id with
  | none => (w, .returned ([], some (notFound id)))
  | some fpe =>
    let r := fpe.Access N w cipher
    (r.1, r.2.map (fun s => (s, none)))

/-! ## A small engine to run the definitions on -/

/-- Rotate a decimal digit by `k`; every other byte is kept. -/
def toyRotate (k : Nat) (b : UInt8) : UInt8 :=
  if 48 ≤ b.toNat ∧ b.toNat ≤ 57 then UInt8.ofNat (48 + (b.toNat - 48 + k) % 10) else b

/-- The key of a toy transform, from 1 to 9, computed from the length of its shared
secret. -/
def toyKey (h : VeFPE) : Nat := (C.GoString h.params.sharedSecret).length % 9 + 1

/-- A format-preserving toy engine. Creating the library context fails on an empty
policy URL, creating a transform fails on an empty identity, and creating the
access transform also fails on an empty shared secret. Protect rotates the digits
by the key and access rotates them back; both refuse bytes outside ASCII and
inputs longer than the output buffer. -/
def toyNative : Native where
  malloc := fun _ => true
  VeLibCtxParamsDefaults := ⟨none, none, none, none, none⟩
  VeFPEParamsDefaults := ⟨0, 0, none, none, none⟩
  VeCreateLibCtx := fun p => if C.GoString p.policyURL = [] then 1 else 0
  VeCreateFPE := fun _ p =>
    if C.GoString p.identity = [] then 1
    else if p.access = 1 ∧ C.GoString p.sharedSecret = [] then 1 else 0
  VeProtect := fun h p size =>
    if p.any (fun b => 128 ≤ b.toNat) ∨ size < p.length then (1, [])
    else (0, p.map (toyRotate (toyKey h)))
  VeAccess := fun h c size =>
    if c.any (fun b => 128 ≤ b.toNat) ∨ size < c.length then (1, [])
    else (0, c.map (toyRotate (10 - toyKey h)))

/-- The state after `RegisterFPE("fpe-dev", ...)` of `ExampleUsingDynamicFpe`, on the
toy engine. -/
def exampleWorld : World :=
  (RegisterFPE toyNative World.init (lit "fpe-dev")
    (lit "https://voltage-pp-0000.opentext.co.id/policy/clientPolicy.xml")
    (lit "/opt/simple-api/trustStore-cloud") (lit "/opt/simple-api/cache")
    (lit "developer@ori.co.id") (lit "voltage123") (lit "alphanumeric")).1

/-- The context struct that a successful `CreateVoltageFPEContext` fills on the toy
engine, for the allocation with serial number `a`. -/
def toyCtx (a : Nat) (policyURL trustPath cachePath identity secret format : GoString) :
    VoltageFPEContext :=
  let args : VeLibCtxParams :=
    ⟨C.CString policyURL, C.CString trustPath, C.CString cachePath,
     C.CString (lit "VoltageCGO"), C.CString (lit "1.0")⟩
  let p : VeFPEParams := ⟨1, 0, C.CString identity, C.CString secret, C.CString format⟩
  ⟨a, ⟨a, args⟩, ⟨⟨a, args⟩, p⟩, ⟨⟨a, args⟩, { p with protect := 0, access := 1 }⟩⟩

/-- The context struct behind `"fpe-dev"` in `exampleWorld`. -/
def exampleCtx : VoltageFPEContext :=
  toyCtx 0 (lit "https://voltage-pp-0000.opentext.co.id/policy/clientPolicy.xml")
    (lit "/opt/simple-api/trustStore-cloud") (lit "/opt/simple-api/cache")
    (lit "developer@ori.co.id") (lit "voltage123") (lit "alphanumeric")

/-- The state after a second `RegisterFPE("fpe-dev", ...)`, with another identity and
shared secret, on the toy engine. -/
def replacedWorld : World :=
  (RegisterFPE toyNative exampleWorld (lit "fpe-dev")
    (lit "https://voltage-pp-0000.opentext.co.id/policy/clientPolicy.xml")
    (lit "/opt/simple-api/trustStore-cloud") (lit "/opt/simple-api/cache")
    (lit "tester@ori.co.id") (lit "secret") (lit "alphanumeric")).1

/-- The context struct behind `"fpe-dev"` in `replacedWorld`. -/
def replacedCtx : VoltageFPEContext :=
  toyCtx 1 (lit "https://voltage-pp-0000.opentext.co.id/policy/clientPolicy.xml")
    (lit "/opt/simple-api/trustStore-cloud") (lit "/opt/simple-api/cache")
    (lit "tester@ori.co.id") (lit "secret") (lit "alphanumeric")

/-- A creation whose third stage fails on the toy engine: the shared secret is
empty, so the access transform cannot be created. -/
def failedCreate : World × Option VoltageFPEContext :=
  CreateVoltageFPEContext toyNative World.init (C.CString (lit "https://policy"))
    (C.CString (lit "/trust")) (C.CString (lit "/cache")) (C.CString (lit "dev"))
    (C.CString []) (C.CString (lit "alphanumeric"))

/-- The context struct that `failedCreate` was filling. -/
def failedCtx : VoltageFPEContext :=
  toyCtx 0 (lit "https://policy") (lit "/trust") (lit "/cache") (lit "dev") []
    (lit "alphanumeric")

/-! ## Ownership of native resources -/

/-- The context struct a release call works on: `free` of the struct, or the
release of a handle stored in it. No other call releases anything. -/
def Call.releaseOwner : Call → Option Nat
  | .free a => some a
  | .VeDestroyLibCtx h => some h.ctx
  | .VeDestroyFPE h => some h.libctx.ctx
  | _ => none

/-- The handles of a context struct are those created for it, and the two
transforms are different handles. -/
def CtxOK (c : VoltageFPEContext) : Prop :=
  c.libctx.ctx = c.addr ∧ c.fpeProtect.libctx = c.libctx ∧ c.fpeAccess.libctx = c.libctx ∧
    c.fpeProtect ≠ c.fpeAccess

/-- The native calls of one `DestroyVoltageFPEContext(c)`. -/
def destroyCalls (c : VoltageFPEContext) : List Call :=
  (DestroyVoltageFPEContext World.init (some c)).trace

/-- The native calls of the loop of `DeleteAllFPEs` over a store. -/
def closeCalls (m : List (GoString × VoltageFPE)) : List Call :=
  m.flatMap (fun e => destroyCalls e.2.ctx)

/-! ## The states of the registry -/

/-- The states the registry can be in: from the empty registry, any sequence of the
four registry operations, whatever their arguments and however they end. -/
inductive Reachable (N : Native) : World → Prop where
  | init : Reachable N World.init
  | register {w : World} (id policyURL trustPath cachePath identity secret format : GoString) :
      Reachable N w →
      Reachable N (RegisterFPE N w id policyURL trustPath cachePath identity secret format).1
  | encrypt {w : World} (id data : GoString) :
      Reachable N w → Reachable N (EncryptByID N w id data).1
  | decrypt {w : World} (id cipher : GoString) :
      Reachable N w → Reachable N (DecryptByID N w id cipher).1
  | deleteAll {w : World} : Reachable N w → Reachable N (DeleteAllFPEs w)

/-- The invariant of the registry: identifiers are bound at most once, the bound
handles are different allocations made earlier, each with its own native handles,
no release call was ever made on a bound handle, and no release call was made
twice. -/
def WF (w : World) : Prop :=
  (w.fpeStore.map (fun e => e.1)).Nodup ∧
  (w.fpeStore.map (fun e => e.2.ctx.addr)).Nodup ∧
  (∀ e ∈ w.fpeStore, CtxOK e.2.ctx ∧ e.2.ctx.addr < w.next) ∧
  (∀ x ∈ w.trace, ∀ a, x.releaseOwner = some a →
    a < w.next ∧ ∀ e ∈ w.fpeStore, e.2.ctx.addr ≠ a) ∧
  (∀ x : Call, x.releaseOwner ≠ none → w.trace.count x ≤ 1)

/-- The state after `"fpe-dev"` and `"fpe-prod"` were registered on the toy engine. -/
def twoWorld : World :=
  (RegisterFPE toyNative exampleWorld (lit "fpe-prod")
    (lit "https://voltage-pp-0000.opentext.co.id/policy/clientPolicy.xml")
    (lit "/opt/simple-api/trustStore-cloud") (lit "/opt/simple-api/cache")
    (lit "tester@ori.co.id") (lit "secret") (lit "alphanumeric")).1

/-- The states that follow a state without `RegisterFPE` for `id` and without
`DeleteAllFPEs` in between: any sequence of `EncryptByID` and `DecryptByID` calls,
for any identifier and text, and of `RegisterFPE` calls for other identifiers. -/
inductive Undisturbed (N : Native) (id : GoString) (w : World) : World → Prop where
  | refl : Undisturbed N id w w
  | encrypt {w1 : World} (id1 data : GoString) :
      Undisturbed N id w w1 → Undisturbed N id w (EncryptByID N w1 id1 data).1
  | decrypt {w1 : World} (id1 cipher : GoString) :
      Undisturbed N id w w1 → Undisturbed N id w (DecryptByID N w1 id1 cipher).1
  | register {w1 : World} (id1 policyURL trustPath cachePath identity secret format : GoString) :
      id1 ≠ id → Undisturbed N id w w1 →
      Undisturbed N id w
        (RegisterFPE N w1 id1 policyURL trustPath cachePath identity secret format).1

/-- The state of the example right after `EncryptByID("fpe-dev", "12-10-2005 10:27:33")`. -/
def encryptedWorld : World :=
  (EncryptByID toyNative exampleWorld (lit "fpe-dev") (lit "12-10-2005 10:27:33")).1

/-- A later state: `"fpe-prod"` was registered and a text was protected with it. -/
def laterWorld : World :=
  (EncryptByID toyNative
    (RegisterFPE toyNative encryptedWorld (lit "fpe-prod")
      (lit "https://voltage-pp-0000.opentext.co.id/policy/clientPolicy.xml")
      (lit "/opt/simple-api/trustStore-cloud") (lit "/opt/simple-api/cache")
      (lit "tester@ori.co.id") (lit "secret") (lit "alphanumeric")).1
    (lit "fpe-prod") (lit "2005")).1

/-! ## What the native side is given -/

/-- Appending the terminating NUL does not change the C string. -/
theorem cString_append_nul (s : List UInt8) : cString (s ++ [0]) = cString s := by
  induction s with
  | nil => simp [cString]
  | cons b t ih =>
    by_cases hb : b = 0
    · simp [cString, hb]
    · simp [cString, hb, ih]

/-- The C string of a C string is itself. -/
theorem cString_cString (s : List UInt8) : cString (cString s) = cString s := by
  induction s with
  | nil => simp [cString]
  | cons b t ih =>
    by_cases hb : b = 0
    · simp [cString, hb]
    · simp [cString, hb, ih]

/-- A byte string without NUL is its own C string. -/
theorem cString_no_nul (s : List UInt8) (h : (0 : UInt8) ∉ s) : cString s = s := by
  induction s with
  | nil => rfl
  | cons b t ih =>
    have hb : b ≠ 0 := fun e => h (by simp [e])
    have ht : (0 : UInt8) ∉ t := fun m => h (List.mem_cons_of_mem _ m)
    simp [cString, hb, ih ht]

/-- The bytes a native function reads from `C.CString(s)` up to `strlen`: those of
`s` before its first NUL. -/
theorem take_strlen_CString (s : GoString) :
    (s ++ [0]).take (strlen (s ++ [0])) = cString s := by
  unfold strlen
  induction s with
  | nil => simp [cString]
  | cons b t ih =>
    by_cases hb : b = 0
    · simp [cString, hb]
    · simp [cString, hb, ih]

/-- `C.GoString(strdup(buf))` after the engine wrote `out` and the wrapper the NUL. -/
theorem GoString_strdup (out : List UInt8) :
    C.GoString (strdup (out ++ [0])) = cString out := by
  simp only [strdup, C.GoString]
  rw [cString_append_nul, cString_append_nul, cString_cString]

/-- What `Protect` does, in terms of the engine call it makes. -/
theorem Protect_eq (N : Native) (w : World) (v : VoltageFPE) (data : GoString) :
    v.Protect N w data =
      (w.log (Call.VeProtect v.ctx.fpeProtect (cString data)
          (N.VeProtect v.ctx.fpeProtect (cString data) 300).1),
       if (N.VeProtect v.ctx.fpeProtect (cString data) 300).1 ≠ 0 then .returned []
       else if (N.VeProtect v.ctx.fpeProtect (cString data) 300).2.length < 300 then
         .returned (cString (N.VeProtect v.ctx.fpeProtect (cString data) 300).2)
       else .undefined) := by
  simp only [VoltageFPE.Protect, VoltageProtect, C.CString, take_strlen_CString]
  by_cases h1 : (N.VeProtect v.ctx.fpeProtect (cString data) 300).1 ≠ 0
  · simp [h1, Outcome.map, C.GoString]
  · by_cases h2 : (N.VeProtect v.ctx.fpeProtect (cString data) 300).2.length < 300
    · simp only [h1, h2, if_true, if_false, Outcome.map, GoString_strdup]
    · simp only [h1, h2, if_false, Outcome.map]

/-- What `Access` does, in terms of the engine call it makes. -/
theorem Access_eq (N : Native) (w : World) (v : VoltageFPE) (data : GoString) :
    v.Access N w data =
      (w.log (Call.VeAccess v.ctx.fpeAccess (cString data)
          (N.VeAccess v.ctx.fpeAccess (cString data) 300).1),
       if (N.VeAccess v.ctx.fpeAccess (cString data) 300).1 ≠ 0 then .returned []
       else if (N.VeAccess v.ctx.fpeAccess (cString data) 300).2.length < 300 then
         .returned (cString (N.VeAccess v.ctx.fpeAccess (cString data) 300).2)
       else .undefined) := by
  simp only [VoltageFPE.Access, VoltageAccess, C.CString, take_strlen_CString]
  by_cases h1 : (N.VeAccess v.ctx.fpeAccess (cString data) 300).1 ≠ 0
  · simp [h1, Outcome.map, C.GoString]
  · by_cases h2 : (N.VeAccess v.ctx.fpeAccess (cString data) 300).2.length < 300
    · simp only [h1, h2, if_true, if_false, Outcome.map, GoString_strdup]
    · simp only [h1, h2, if_false, Outcome.map]

/-! ## Creation and registration -/

/-- What `CreateVoltageFPEContext` does to the state: the store is untouched, one
serial number is used, the native calls it adds release nothing, and a context
it returns is the one just allocated, with its own handles. -/
theorem Create_spec (N : Native) (w : World) (p t c i s f : CharPtr) :
    (CreateVoltageFPEContext N w p t c i s f).1.fpeStore = w.fpeStore ∧
    (CreateVoltageFPEContext N w p t c i s f).1.next = w.next + 1 ∧
    (∃ calls, (CreateVoltageFPEContext N w p t c i s f).1.trace = w.trace ++ calls ∧
      ∀ x ∈ calls, x.releaseOwner = none) ∧
    ∀ ctx, (CreateVoltageFPEContext N w p t c i s f).2 = some ctx →
      ctx.addr = w.next ∧ CtxOK ctx := by
  unfold CreateVoltageFPEContext
  simp only [World.log]
  split_ifs
  all_goals refine ⟨rfl, rfl, ⟨_, by simp only [List.append_assoc]; rfl, ?_⟩, ?_⟩
  all_goals first
    | (intro ctx h
       simp only [reduceCtorEq] at h
       done)
    | (intro ctx h
       simp only [Option.some.injEq] at h
       subst h
       simp [CtxOK])
    | (intro x hx
       simp only [List.mem_cons, List.mem_singleton, List.not_mem_nil, or_false,
         List.singleton_append, List.cons_append, List.nil_append] at hx
       rcases hx with rfl | rfl | rfl | rfl <;> rfl)

/-- The state after `NewVoltageFPE` is the state after `CreateVoltageFPEContext`. -/
theorem NewVoltageFPE_world (N : Native) (w : World) (p t c i s f : GoString) :
    (NewVoltageFPE N w p t c i s f).1 =
      (CreateVoltageFPEContext N w (C.CString p) (C.CString t) (C.CString c) (C.CString i)
        (C.CString s) (C.CString f)).1 := by
  unfold NewVoltageFPE
  split <;> simp_all

/-- A handle returned by `NewVoltageFPE` wraps the context that was created. -/
theorem NewVoltageFPE_returned (N : Native) (w : World) (p t c i s f : GoString)
    (fpe : VoltageFPE) (h : (NewVoltageFPE N w p t c i s f).2 = .returned fpe) :
    (CreateVoltageFPEContext N w (C.CString p) (C.CString t) (C.CString c) (C.CString i)
        (C.CString s) (C.CString f)).2 = some fpe.ctx := by
  unfold NewVoltageFPE at h
  split at h
  · simp at h
  · rename_i w1 cCtx heq
    simp only [Outcome.returned.injEq] at h
    subst h
    simp [heq]

/-- `RegisterFPE` after a successful `NewVoltageFPE`: the new handle is stored under
`id` and nil is returned. -/
theorem RegisterFPE_returned (N : Native) (w : World) (id p t c i s f : GoString)
    (fpe : VoltageFPE) (h : (NewVoltageFPE N w p t c i s f).2 = .returned fpe) :
    RegisterFPE N w id p t c i s f =
      ({ (NewVoltageFPE N w p t c i s f).1 with fpeStore := mapSet w.fpeStore id fpe },
        .returned none) := by
  have hs : (NewVoltageFPE N w p t c i s f).1.fpeStore = w.fpeStore := by
    rw [NewVoltageFPE_world]; exact (Create_spec N w _ _ _ _ _ _).1
  unfold RegisterFPE
  generalize NewVoltageFPE N w p t c i s f = r at h hs
  obtain ⟨w1, o⟩ := r
  simp only at h hs
  subst h
  simp [hs]

/-- When `NewVoltageFPE` does not return, `RegisterFPE` leaves the state that
`NewVoltageFPE` left. -/
theorem RegisterFPE_not_returned (N : Native) (w : World) (id p t c i s f : GoString)
    (h : ∀ fpe, (NewVoltageFPE N w p t c i s f).2 ≠ .returned fpe) :
    (RegisterFPE N w id p t c i s f).1 = (NewVoltageFPE N w p t c i s f).1 := by
  unfold RegisterFPE
  generalize NewVoltageFPE N w p t c i s f = r at h
  obtain ⟨w1, o⟩ := r
  cases o with
  | returned fpe => exact absurd rfl (h fpe)
  | panicked m => rfl
  | undefined => rfl

/-- Reading a key just written. -/
theorem mapGet_mapSet (m : List (GoString × VoltageFPE)) (k : GoString) (v : VoltageFPE) :
    mapGet (mapSet m k v) k = some v := by
  simp [mapSet, mapGet]

/-- After `m[k] = v` the map has exactly one entry for `k`. -/
theorem mapSet_filter (m : List (GoString × VoltageFPE)) (k : GoString) (v : VoltageFPE) :
    (mapSet m k v).filter (fun e => e.1 = k) = [(k, v)] := by
  simp [mapSet, List.filter_cons, List.filter_filter]

/-- Writing a key leaves the other keys as they were. -/
theorem mapGet_mapSet_ne (m : List (GoString × VoltageFPE)) (k k1 : GoString) (v : VoltageFPE)
    (h : k ≠ k1) : mapGet (mapSet m k v) k1 = mapGet m k1 := by
  have hf : mapGet (m.filter (fun e => e.1 ≠ k)) k1 = mapGet m k1 := by
    induction m with
    | nil => rfl
    | cons e rest ih =>
      rw [List.filter_cons]
      by_cases hk : e.1 = k
      · have hd : decide (e.1 ≠ k) = false := by simp [hk]
        have hk1 : ¬ e.1 = k1 := fun e1 => h (hk.symm.trans e1)
        simp only [hd, Bool.false_eq_true, if_false, ih]
        simp only [mapGet, hk1, if_false]
      · have hd : decide (e.1 ≠ k) = true := by simp [hk]
        simp only [hd, if_true]
        simp only [mapGet, ih]
  simp only [mapSet, mapGet, h, if_false]
  exact hf

/-- `RegisterFPE` for one identifier leaves the binding of every other identifier. -/
theorem RegisterFPE_mapGet_ne (N : Native) (w : World) (id id1 p t c i s f : GoString)
    (h : id1 ≠ id) :
    mapGet (RegisterFPE N w id1 p t c i s f).1.fpeStore id = mapGet w.fpeStore id := by
  by_cases hr : ∃ fpe, (NewVoltageFPE N w p t c i s f).2 = .returned fpe
  · obtain ⟨fpe, hfpe⟩ := hr
    rw [RegisterFPE_returned N w id1 p t c i s f fpe hfpe]
    exact mapGet_mapSet_ne _ _ _ _ h
  · rw [RegisterFPE_not_returned N w id1 p t c i s f (fun fpe hf => hr ⟨fpe, hf⟩),
      NewVoltageFPE_world]
    rw [(Create_spec N w _ _ _ _ _ _).1]

/-- `EncryptByID` does not touch the store. -/
theorem EncryptByID_fpeStore (N : Native) (w : World) (id data : GoString) :
    (EncryptByID N w id data).1.fpeStore = w.fpeStore := by
  unfold EncryptByID
  cases hg : mapGet w.fpeStore id with
  | none => rfl
  | some fpe => simp [Protect_eq, World.log]

/-- `DecryptByID` does not touch the store. -/
theorem DecryptByID_fpeStore (N : Native) (w : World) (id data : GoString) :
    (DecryptByID N w id data).1.fpeStore = w.fpeStore := by
  unfold DecryptByID
  cases hg : mapGet w.fpeStore id with
  | none => rfl
  | some fpe => simp [Access_eq, World.log]

/-- Without `RegisterFPE` for `id` and without `DeleteAllFPEs`, `id` stays bound as it
was. -/
theorem Undisturbed_mapGet (N : Native) (id : GoString) (w w1 : World)
    (h : Undisturbed N id w w1) : mapGet w1.fpeStore id = mapGet w.fpeStore id := by
  induction h with
  | refl => rfl
  | encrypt id1 data _ ih => rw [EncryptByID_fpeStore]; exact ih
  | decrypt id1 data _ ih => rw [DecryptByID_fpeStore]; exact ih
  | register id1 p t c i s f hne _ ih => rw [RegisterFPE_mapGet_ne N _ id id1 p t c i s f hne]; exact ih

/-! ## Lookups of an unbound identifier -/

/-- C1: when `id` is not bound in `fpeStore`, `EncryptByID` and `DecryptByID` both
return the empty string together with the non-nil error
`FPE with id '<id>' not found`, and leave the whole state as it was: the store is
unchanged and no native call is added to the trace. -/
theorem byID_unbound_not_found (N : Native) (w : World) (id text : GoString)
    (h : mapGet w.fpeStore id = none) :
    EncryptByID N w id text = (w, .returned ([], some (notFound id))) ∧
    DecryptByID N w id text = (w, .returned ([], some (notFound id))) ∧
    (EncryptByID N w id text).1.trace = w.trace ∧
    (DecryptByID N w id text).1.trace = w.trace := by
  simp [EncryptByID, DecryptByID, h]

/-- C1 on the registry of the example, asked for an identifier that was never
registered. -/
theorem byID_unbound_not_found_witness :
    mapGet exampleWorld.fpeStore (lit "missing-id") = none ∧
    (EncryptByID toyNative exampleWorld (lit "missing-id") (lit "12-10-2005")
        = (exampleWorld, .returned ([], some (notFound (lit "missing-id")))) ∧
     DecryptByID toyNative exampleWorld (lit "missing-id") (lit "12-10-2005")
        = (exampleWorld, .returned ([], some (notFound (lit "missing-id")))) ∧
     (EncryptByID toyNative exampleWorld (lit "missing-id") (lit "12-10-2005")).1.trace
        = exampleWorld.trace ∧
     (DecryptByID toyNative exampleWorld (lit "missing-id") (lit "12-10-2005")).1.trace
        = exampleWorld.trace) :=
  ⟨by decide, byID_unbound_not_found toyNative exampleWorld _ _ (by decide)⟩

/-! ## Destruction of a context -/

/-- The native calls of `DestroyVoltageFPEContext` on a non-null context. -/
theorem Destroy_some (w : World) (ctx : VoltageFPEContext) :
    DestroyVoltageFPEContext w (some ctx) =
      { w with trace := w.trace ++
          [Call.VeDestroyFPE ctx.fpeProtect, Call.VeDestroyFPE ctx.fpeAccess,
           Call.VeDestroyLibCtx ctx.libctx, Call.free ctx.addr] } := by
  simp [DestroyVoltageFPEContext, World.log]

/-- `CreateVoltageFPEContext` does not touch the store. -/
theorem Create_fpeStore (N : Native) (w : World) (p t c i s f : CharPtr) :
    (CreateVoltageFPEContext N w p t c i s f).1.fpeStore = w.fpeStore := by
  unfold CreateVoltageFPEContext
  simp only [World.log]
  split_ifs <;> rfl

/-- `RegisterFPE` never returns a non-nil error: when it returns, it returns nil. -/
theorem RegisterFPE_outcome (N : Native) (w : World)
    (id policyURL trustPath cachePath identity secret format : GoString) :
    (∃ fpe, (NewVoltageFPE N w policyURL trustPath cachePath identity secret format).2
        = .returned fpe ∧
      (RegisterFPE N w id policyURL trustPath cachePath identity secret format).2
        = .returned none) ∨
    (∃ m, (RegisterFPE N w id policyURL trustPath cachePath identity secret format).2
        = .panicked m) ∨
    (RegisterFPE N w id policyURL trustPath cachePath identity secret format).2
        = .undefined := by
  unfold RegisterFPE
  generalize NewVoltageFPE N w policyURL trustPath cachePath identity secret format = r
  obtain ⟨w1, o⟩ := r
  cases o with
  | returned fpe => exact Or.inl ⟨fpe, rfl, rfl⟩
  | panicked m => exact Or.inr (Or.inl ⟨m, rfl⟩)
  | undefined => exact Or.inr (Or.inr rfl)

/-- C5, as the code has it: when `CreateVoltageFPEContext` returns NULL,
`RegisterFPE` does not return at all: `NewVoltageFPE` panics with
`failed to init Voltage FPE context`, the panic reaches the caller of
`RegisterFPE`, and the store is left as it was. And in every state, for every
configuration, whether the creation fails or not, `RegisterFPE` never returns a
non-nil error. -/
theorem RegisterFPE_creation_failure (N : Native) (w : World)
    (id policyURL trustPath cachePath identity secret format : GoString) :
    ((CreateVoltageFPEContext N w (C.CString policyURL) (C.CString trustPath)
        (C.CString cachePath) (C.CString identity) (C.CString secret)
        (C.CString format)).2 = none →
      (RegisterFPE N w id policyURL trustPath cachePath identity secret format).2
        = .panicked (lit "failed to init Voltage FPE context") ∧
      (RegisterFPE N w id policyURL trustPath cachePath identity secret format).1.fpeStore
        = w.fpeStore) ∧
    ∀ e : GoError,
      (RegisterFPE N w id policyURL trustPath cachePath identity secret format).2
        ≠ .returned (some e) := by
  constructor
  · intro h
    have hs := Create_fpeStore N w (C.CString policyURL) (C.CString trustPath)
      (C.CString cachePath) (C.CString identity) (C.CString secret) (C.CString format)
    unfold RegisterFPE NewVoltageFPE
    generalize CreateVoltageFPEContext N w (C.CString policyURL) (C.CString trustPath)
      (C.CString cachePath) (C.CString identity) (C.CString secret) (C.CString format) = r
      at h hs
    obtain ⟨w1, o⟩ := r
    simp only at h hs
    subst h
    exact ⟨rfl, hs⟩
  · intro e he
    rcases RegisterFPE_outcome N w id policyURL trustPath cachePath identity secret format
      with ⟨_, _, h⟩ | ⟨m, h⟩ | h
    · rw [h] at he
      simp at he
    · rw [h] at he
      simp at he
    · rw [h] at he
      simp at he

/-- C5 on the toy engine: with an empty policy URL the creation fails and
`RegisterFPE` panics; with the configuration of the example it succeeds, and no
error is returned either. -/
theorem RegisterFPE_creation_failure_witness :
    (CreateVoltageFPEContext toyNative World.init (C.CString []) (C.CString (lit "/trust"))
        (C.CString (lit "/cache")) (C.CString (lit "dev")) (C.CString (lit "s3"))
        (C.CString (lit "alphanumeric"))).2 = none ∧
    ((RegisterFPE toyNative World.init (lit "fpe-dev") [] (lit "/trust") (lit "/cache")
        (lit "dev") (lit "s3") (lit "alphanumeric")).2
      = .panicked (lit "failed to init Voltage FPE context") ∧
    (RegisterFPE toyNative World.init (lit "fpe-dev") [] (lit "/trust") (lit "/cache")
        (lit "dev") (lit "s3") (lit "alphanumeric")).1.fpeStore = World.init.fpeStore) ∧
    (∀ e : GoError,
      (RegisterFPE toyNative World.init (lit "fpe-dev") [] (lit "/trust") (lit "/cache")
        (lit "dev") (lit "s3") (lit "alphanumeric")).2 ≠ .returned (some e)) ∧
    (RegisterFPE toyNative World.init (lit "fpe-dev") (lit "https://policy") (lit "/trust")
        (lit "/cache") (lit "dev") (lit "s3") (lit "alphanumeric")).2 = .returned none ∧
    (∀ e : GoError,
      (RegisterFPE toyNative World.init (lit "fpe-dev") (lit "https://policy") (lit "/trust")
        (lit "/cache") (lit "dev") (lit "s3") (lit "alphanumeric")).2 ≠ .returned (some e)) :=
  ⟨by decide,
   (RegisterFPE_creation_failure toyNative World.init (lit "fpe-dev") [] (lit "/trust")
      (lit "/cache") (lit "dev") (lit "s3") (lit "alphanumeric")).1 (by decide),
   (RegisterFPE_creation_failure toyNative World.init (lit "fpe-dev") [] (lit "/trust")
      (lit "/cache") (lit "dev") (lit "s3") (lit "alphanumeric")).2,
   by decide,
   (RegisterFPE_creation_failure toyNative World.init (lit "fpe-dev") (lit "https://policy")
      (lit "/trust") (lit "/cache") (lit "dev") (lit "s3") (lit "alphanumeric")).2⟩

/-- C5 as stated fails: on the toy engine the library context cannot be created
for an empty policy URL, `CreateVoltageFPEContext` returns NULL, and the call of
`RegisterFPE` panics instead of returning an error. -/
theorem RegisterFPE_error_counterexample :
    (CreateVoltageFPEContext toyNative World.init (C.CString []) (C.CString (lit "/trust"))
        (C.CString (lit "/cache")) (C.CString (lit "dev")) (C.CString (lit "s3"))
        (C.CString (lit "alphanumeric"))).2 = none ∧
    (RegisterFPE toyNative World.init (lit "fpe-dev") [] (lit "/trust") (lit "/cache")
        (lit "dev") (lit "s3") (lit "alphanumeric")).2
      = .panicked (lit "failed to init Voltage FPE context") ∧
    ¬ ∃ e : GoError,
      (RegisterFPE toyNative World.init (lit "fpe-dev") [] (lit "/trust") (lit "/cache")
        (lit "dev") (lit "s3") (lit "alphanumeric")).2 = .returned (some e) := by
  have h : (RegisterFPE toyNative World.init (lit "fpe-dev") [] (lit "/trust") (lit "/cache")
        (lit "dev") (lit "s3") (lit "alphanumeric")).2
      = .panicked (lit "failed to init Voltage FPE context") := by decide
  refine ⟨by decide, h, ?_⟩
  rintro ⟨e, he⟩
  rw [h] at he
  cases he

/-- What the lookups do when the engine reports a failure (a non-zero status): for
an identifier bound to a handle they return the empty string together with a nil
error. The text reaches the engine up to its first NUL byte. -/
theorem byID_engine_failure (N : Native) (w : World) (id text : GoString) (fpe : VoltageFPE)
    (hb : mapGet w.fpeStore id = some fpe) :
    ((N.VeProtect fpe.ctx.fpeProtect (cString text) 300).1 ≠ 0 →
      (EncryptByID N w id text).2 = .returned ([], none)) ∧
    ((N.VeAccess fpe.ctx.fpeAccess (cString text) 300).1 ≠ 0 →
      (DecryptByID N w id text).2 = .returned ([], none)) := by
  constructor
  · intro h
    simp [EncryptByID, hb, Protect_eq, h, Outcome.map]
  · intro h
    simp [DecryptByID, hb, Access_eq, h, Outcome.map]

/-- C6 fails on the code: the toy engine reports a failure (status 1) of protect
and of access on `é`, the C wrapper returns NULL, and `Protect` and `Access` pass
that NULL to `C.GoString` unchecked, so that `EncryptByID` and `DecryptByID` both
return the empty string together with a nil error, and no non-nil error. These
are the very values they return for the empty text, which the engine accepts
(status 0). -/
theorem byID_engine_failure_nil_error :
    mapGet exampleWorld.fpeStore (lit "fpe-dev") = some ⟨exampleCtx⟩ ∧
    (toyNative.VeProtect exampleCtx.fpeProtect (cString (lit "é")) 300).1 = 1 ∧
    (toyNative.VeAccess exampleCtx.fpeAccess (cString (lit "é")) 300).1 = 1 ∧
    (VoltageProtect toyNative exampleWorld exampleCtx (C.CString (lit "é"))).2
      = .returned none ∧
    (VoltageAccess toyNative exampleWorld exampleCtx (C.CString (lit "é"))).2
      = .returned none ∧
    (EncryptByID toyNative exampleWorld (lit "fpe-dev") (lit "é")).2 = .returned ([], none) ∧
    (DecryptByID toyNative exampleWorld (lit "fpe-dev") (lit "é")).2 = .returned ([], none) ∧
    (¬ ∃ (s : GoString) (e : GoError),
      (EncryptByID toyNative exampleWorld (lit "fpe-dev") (lit "é")).2
        = .returned (s, some e)) ∧
    (¬ ∃ (s : GoString) (e : GoError),
      (DecryptByID toyNative exampleWorld (lit "fpe-dev") (lit "é")).2
        = .returned (s, some e)) ∧
    (toyNative.VeProtect exampleCtx.fpeProtect (cString []) 300).1 = 0 ∧
    (EncryptByID toyNative exampleWorld (lit "fpe-dev") []).2 = .returned ([], none) ∧
    (toyNative.VeAccess exampleCtx.fpeAccess (cString []) 300).1 = 0 ∧
    (DecryptByID toyNative exampleWorld (lit "fpe-dev") []).2 = .returned ([], none) := by
  have h1 : (EncryptByID toyNative exampleWorld (lit "fpe-dev") (lit "é")).2
      = .returned ([], none) := by decide
  have h2 : (DecryptByID toyNative exampleWorld (lit "fpe-dev") (lit "é")).2
      = .returned ([], none) := by decide
  refine ⟨by decide, by decide, by decide, by decide, by decide, h1, h2, ?_, ?_,
    by decide, by decide, by decide, by decide⟩
  · rintro ⟨s, e, he⟩
    rw [h1] at he
    simp at he
  · rintro ⟨s, e, he⟩
    rw [h2] at he
    simp at he

/-! ## Registering twice under one identifier -/

/-- C2: when both creations succeed, after `RegisterFPE(id, C1)` and then
`RegisterFPE(id, C2)` both calls have returned nil, the store has exactly one entry
for `id`, and it is the handle created from `C2`, which is not the handle created
from `C1`; for every text `EncryptByID(id, text)` is `Protect` of that handle, and
the one native call it makes is `VeProtect` on the protect transform of `C2`. -/
theorem RegisterFPE_twice_binds_second (N : Native) (w w1 w2 : World)
    (id p1 t1 c1 i1 s1 f1 p2 t2 c2 i2 s2 f2 : GoString) (fpe1 fpe2 : VoltageFPE)
    (hw1 : w1 = (RegisterFPE N w id p1 t1 c1 i1 s1 f1).1)
    (hw2 : w2 = (RegisterFPE N w1 id p2 t2 c2 i2 s2 f2).1)
    (h1 : (NewVoltageFPE N w p1 t1 c1 i1 s1 f1).2 = .returned fpe1)
    (h2 : (NewVoltageFPE N w1 p2 t2 c2 i2 s2 f2).2 = .returned fpe2) :
    (RegisterFPE N w id p1 t1 c1 i1 s1 f1).2 = .returned none ∧
    (RegisterFPE N w1 id p2 t2 c2 i2 s2 f2).2 = .returned none ∧
    mapGet w1.fpeStore id = some fpe1 ∧
    mapGet w2.fpeStore id = some fpe2 ∧
    w2.fpeStore.filter (fun e => e.1 = id) = [(id, fpe2)] ∧
    fpe2.ctx.addr ≠ fpe1.ctx.addr ∧
    fpe2.ctx.fpeProtect ≠ fpe1.ctx.fpeProtect ∧
    ∀ text : GoString,
      EncryptByID N w2 id text =
        ((fpe2.Protect N w2 text).1, (fpe2.Protect N w2 text).2.map (fun s => (s, none))) ∧
      (EncryptByID N w2 id text).1.trace = w2.trace ++
        [Call.VeProtect fpe2.ctx.fpeProtect (cString text)
          (N.VeProtect fpe2.ctx.fpeProtect (cString text) 300).1] := by
  have e1 := RegisterFPE_returned N w id p1 t1 c1 i1 s1 f1 fpe1 h1
  have e2 := RegisterFPE_returned N w1 id p2 t2 c2 i2 s2 f2 fpe2 h2
  have a1 := (Create_spec N w (C.CString p1) (C.CString t1) (C.CString c1) (C.CString i1)
    (C.CString s1) (C.CString f1)).2.2.2 fpe1.ctx (NewVoltageFPE_returned N w _ _ _ _ _ _ fpe1 h1)
  have a2 := (Create_spec N w1 (C.CString p2) (C.CString t2) (C.CString c2) (C.CString i2)
    (C.CString s2) (C.CString f2)).2.2.2 fpe2.ctx
    (NewVoltageFPE_returned N w1 _ _ _ _ _ _ fpe2 h2)
  have n1 : w1.next = w.next + 1 := by
    rw [hw1, e1]
    simp only [NewVoltageFPE_world]
    exact (Create_spec N w _ _ _ _ _ _).2.1
  have g1 : mapGet w1.fpeStore id = some fpe1 := by
    rw [hw1, e1]; exact mapGet_mapSet _ _ _
  have g2 : mapGet w2.fpeStore id = some fpe2 := by
    rw [hw2, e2]; exact mapGet_mapSet _ _ _
  have hne : fpe2.ctx.addr ≠ fpe1.ctx.addr := by
    rw [a1.1, a2.1, n1]; omega
  refine ⟨by rw [e1], by rw [e2], g1, g2, ?_, hne, ?_, ?_⟩
  · rw [hw2, e2]; exact mapSet_filter _ _ _
  · intro h
    apply hne
    have k2 := a2.2
    have k1 := a1.2
    unfold CtxOK at k1 k2
    rw [← k2.1, ← k1.1, ← k2.2.1, ← k1.2.1, h]
  · intro text
    constructor
    · simp [EncryptByID, g2]
    · simp [EncryptByID, g2, Protect_eq, World.log]

/-- C2 on the toy engine: `"fpe-dev"` registered twice; the text of the example is
then protected with the key of the second registration. -/
theorem RegisterFPE_twice_binds_second_witness :
    exampleWorld = (RegisterFPE toyNative World.init (lit "fpe-dev")
      (lit "https://voltage-pp-0000.opentext.co.id/policy/clientPolicy.xml")
      (lit "/opt/simple-api/trustStore-cloud") (lit "/opt/simple-api/cache")
      (lit "developer@ori.co.id") (lit "voltage123") (lit "alphanumeric")).1 ∧
    replacedWorld = (RegisterFPE toyNative exampleWorld (lit "fpe-dev")
      (lit "https://voltage-pp-0000.opentext.co.id/policy/clientPolicy.xml")
      (lit "/opt/simple-api/trustStore-cloud") (lit "/opt/simple-api/cache")
      (lit "tester@ori.co.id") (lit "secret") (lit "alphanumeric")).1 ∧
    (NewVoltageFPE toyNative World.init
      (lit "https://voltage-pp-0000.opentext.co.id/policy/clientPolicy.xml")
      (lit "/opt/simple-api/trustStore-cloud") (lit "/opt/simple-api/cache")
      (lit "developer@ori.co.id") (lit "voltage123") (lit "alphanumeric")).2
        = .returned ⟨exampleCtx⟩ ∧
    (NewVoltageFPE toyNative exampleWorld
      (lit "https://voltage-pp-0000.opentext.co.id/policy/clientPolicy.xml")
      (lit "/opt/simple-api/trustStore-cloud") (lit "/opt/simple-api/cache")
      (lit "tester@ori.co.id") (lit "secret") (lit "alphanumeric")).2
        = .returned ⟨replacedCtx⟩ ∧
    mapGet replacedWorld.fpeStore (lit "fpe-dev") = some ⟨replacedCtx⟩ ∧
    replacedWorld.fpeStore.filter (fun e => e.1 = lit "fpe-dev")
      = [(lit "fpe-dev", ⟨replacedCtx⟩)] ∧
    (EncryptByID toyNative replacedWorld (lit "fpe-dev") (lit "12-10-2005 10:27:33")).2
      = .returned (lit "89-87-9772 87:94:00", none) ∧
    (VoltageFPE.Protect toyNative replacedWorld ⟨exampleCtx⟩ (lit "12-10-2005 10:27:33")).2
      = .returned (lit "34-32-4227 32:49:55") :=
  have h := RegisterFPE_twice_binds_second toyNative World.init exampleWorld replacedWorld
    (lit "fpe-dev")
    (lit "https://voltage-pp-0000.opentext.co.id/policy/clientPolicy.xml")
    (lit "/opt/simple-api/trustStore-cloud") (lit "/opt/simple-api/cache")
    (lit "developer@ori.co.id") (lit "voltage123") (lit "alphanumeric")
    (lit "https://voltage-pp-0000.opentext.co.id/policy/clientPolicy.xml")
    (lit "/opt/simple-api/trustStore-cloud") (lit "/opt/simple-api/cache")
    (lit "tester@ori.co.id") (lit "secret") (lit "alphanumeric")
    ⟨exampleCtx⟩ ⟨replacedCtx⟩ rfl rfl (by decide) (by decide)
  ⟨rfl, rfl, by decide, by decide, h.2.2.2.1, h.2.2.2.2.1, by decide, by decide⟩

/-! ## Resources that are never released -/

/-- `RegisterFPE` makes no release call, whatever the store holds under `id`. -/
theorem RegisterFPE_releases_nothing (N : Native) (w : World) (id p t c i s f : GoString) :
    ∃ calls, (RegisterFPE N w id p t c i s f).1.trace = w.trace ++ calls ∧
      ∀ x ∈ calls, x.releaseOwner = none := by
  obtain ⟨calls, h1, h2⟩ := (Create_spec N w (C.CString p) (C.CString t) (C.CString c)
    (C.CString i) (C.CString s) (C.CString f)).2.2.1
  rw [← NewVoltageFPE_world] at h1
  refine ⟨calls, ?_, h2⟩
  by_cases hr : ∃ fpe, (NewVoltageFPE N w p t c i s f).2 = .returned fpe
  · obtain ⟨fpe, hfpe⟩ := hr
    rw [RegisterFPE_returned N w id p t c i s f fpe hfpe]
    exact h1
  · rw [RegisterFPE_not_returned N w id p t c i s f (fun fpe hf => hr ⟨fpe, hf⟩)]
    exact h1

/-- C3 fails on the code: `"fpe-dev"` is bound to the handle of `exampleCtx`, it is
registered again, and afterwards that handle is bound to no identifier while no
release call on it has been made; a later `DeleteAllFPEs` does not release it
either. `RegisterFPE` overwrites the entry without closing the handle it held. -/
theorem RegisterFPE_replace_leaks :
    mapGet exampleWorld.fpeStore (lit "fpe-dev") = some ⟨exampleCtx⟩ ∧
    replacedWorld.fpeStore = [(lit "fpe-dev", ⟨replacedCtx⟩)] ∧
    replacedCtx.addr ≠ exampleCtx.addr ∧
    (∀ x ∈ replacedWorld.trace, x.releaseOwner ≠ some exampleCtx.addr) ∧
    (∀ x ∈ destroyCalls exampleCtx, x ∉ replacedWorld.trace) ∧
    (∀ x ∈ destroyCalls exampleCtx, x ∉ (DeleteAllFPEs replacedWorld).trace) := by
  decide

/-- C7 fails on the code: on the toy engine the struct is allocated, the library
context and the protect transform are created (status 0), the access transform is
refused (status 1), and `CreateVoltageFPEContext` returns NULL after these four
calls, none of which releases anything: the struct, the library context and the
protect transform are left allocated. -/
theorem Create_failure_leaks :
    failedCreate.2 = none ∧
    failedCreate.1.trace =
      [Call.malloc 0 true, Call.VeCreateLibCtx failedCtx.libctx 0,
       Call.VeCreateFPE failedCtx.fpeProtect 0, Call.VeCreateFPE failedCtx.fpeAccess 1] ∧
    Call.VeDestroyFPE failedCtx.fpeProtect ∉ failedCreate.1.trace ∧
    Call.VeDestroyLibCtx failedCtx.libctx ∉ failedCreate.1.trace ∧
    Call.free 0 ∉ failedCreate.1.trace := by
  decide

/-! ## Round trip -/

/-- C8, as the code has it: let `id` be bound to a handle when `EncryptByID(id, P)`
is called, and let `w1` be any state that follows that call without `RegisterFPE`
for `id` and without `DeleteAllFPEs` in between (other lookups and registrations
of other identifiers may happen). If the engine protects `P` into `S` and
accesses `S` back into `P`, both with status 0, and `P` and `S` contain no NUL
byte and are shorter than the 300-byte buffers, then `EncryptByID(id, P)` returns
`(S, nil)` and `DecryptByID(id, S)` in `w1` returns `(P, nil)`. -/
theorem byID_round_trip (N : Native) (w w1 : World) (id P S : GoString) (fpe : VoltageFPE)
    (hb : mapGet w.fpeStore id = some fpe)
    (hsteps : Undisturbed N id (EncryptByID N w id P).1 w1)
    (hprotect : N.VeProtect fpe.ctx.fpeProtect P 300 = (0, S))
    (haccess : N.VeAccess fpe.ctx.fpeAccess S 300 = (0, P))
    (hP : (0 : UInt8) ∉ P) (hS : (0 : UInt8) ∉ S)
    (hPlen : P.length < 300) (hSlen : S.length < 300) :
    (EncryptByID N w id P).2 = .returned (S, none) ∧
    (DecryptByID N w1 id S).2 = .returned (P, none) := by
  have hb1 : mapGet w1.fpeStore id = some fpe := by
    rw [Undisturbed_mapGet N id _ w1 hsteps, EncryptByID_fpeStore]
    exact hb
  refine ⟨?_, ?_⟩
  · simp [EncryptByID, hb, Protect_eq, cString_no_nul P hP, hprotect, hSlen, Outcome.map,
      cString_no_nul S hS]
  · simp [DecryptByID, hb1, Access_eq, cString_no_nul S hS, haccess, hPlen, Outcome.map,
      cString_no_nul P hP]

/-- C8 on the example: `"fpe-dev"` and the plaintext `12-10-2005 10:27:33`, on the
toy engine; between the two calls `"fpe-prod"` is registered and used. -/
theorem byID_round_trip_witness :
    mapGet exampleWorld.fpeStore (lit "fpe-dev") = some ⟨exampleCtx⟩ ∧
    Undisturbed toyNative (lit "fpe-dev")
      (EncryptByID toyNative exampleWorld (lit "fpe-dev") (lit "12-10-2005 10:27:33")).1
      laterWorld ∧
    toyNative.VeProtect exampleCtx.fpeProtect (lit "12-10-2005 10:27:33") 300
      = (0, lit "34-32-4227 32:49:55") ∧
    toyNative.VeAccess exampleCtx.fpeAccess (lit "34-32-4227 32:49:55") 300
      = (0, lit "12-10-2005 10:27:33") ∧
    (0 : UInt8) ∉ lit "12-10-2005 10:27:33" ∧ (0 : UInt8) ∉ lit "34-32-4227 32:49:55" ∧
    (lit "12-10-2005 10:27:33").length < 300 ∧ (lit "34-32-4227 32:49:55").length < 300 ∧
    laterWorld.fpeStore.length = 2 ∧
    (EncryptByID toyNative exampleWorld (lit "fpe-dev") (lit "12-10-2005 10:27:33")).2
      = .returned (lit "34-32-4227 32:49:55", none) ∧
    (DecryptByID toyNative laterWorld (lit "fpe-dev") (lit "34-32-4227 32:49:55")).2
      = .returned (lit "12-10-2005 10:27:33", none) :=
  have hs : Undisturbed toyNative (lit "fpe-dev")
      (EncryptByID toyNative exampleWorld (lit "fpe-dev") (lit "12-10-2005 10:27:33")).1
      laterWorld :=
    Undisturbed.encrypt _ _ (Undisturbed.register _ _ _ _ _ _ _ (by decide) Undisturbed.refl)
  have h := byID_round_trip toyNative exampleWorld laterWorld
    (lit "fpe-dev") (lit "12-10-2005 10:27:33") (lit "34-32-4227 32:49:55") ⟨exampleCtx⟩
    (by decide) hs (by decide) (by decide) (by decide) (by decide) (by decide) (by decide)
  ⟨by decide, hs, by decide, by decide, by decide, by decide, by decide, by decide,
   by decide, h.1, h.2⟩

set_option maxRecDepth 100000 in
/-- C8 as stated fails for a plaintext with a NUL byte: for `P = a NUL b` the toy
engine protects `P` and accesses the result back into `P`, with status 0; but
the engine is only given the bytes before the NUL, so `EncryptByID` returns
`(a, nil)` and `DecryptByID` of that returns `(a, nil)`, not `(P, nil)`. It also
fails for a plaintext of 300 bytes: the engine protects it into 300 bytes with
status 0 and accesses them back, but the wrapper then stores the terminating NUL
at index 300 of its 300-byte buffer, outside the array, so that no value of
`EncryptByID` is defined. -/
theorem byID_round_trip_counterexample :
    mapGet exampleWorld.fpeStore (lit "fpe-dev") = some ⟨exampleCtx⟩ ∧
    toyNative.VeProtect exampleCtx.fpeProtect [97, 0, 98] 300 = (0, [97, 0, 98]) ∧
    toyNative.VeAccess exampleCtx.fpeAccess [97, 0, 98] 300 = (0, [97, 0, 98]) ∧
    toyNative.VeProtect exampleCtx.fpeProtect (cString [97, 0, 98]) 300 = (0, [97]) ∧
    toyNative.VeAccess exampleCtx.fpeAccess [97] 300 = (0, cString [97, 0, 98]) ∧
    (EncryptByID toyNative exampleWorld (lit "fpe-dev") [97, 0, 98]).2
      = .returned ([97], none) ∧
    (DecryptByID toyNative (EncryptByID toyNative exampleWorld (lit "fpe-dev") [97, 0, 98]).1
        (lit "fpe-dev") [97]).2 = .returned ([97], none) ∧
    (DecryptByID toyNative (EncryptByID toyNative exampleWorld (lit "fpe-dev") [97, 0, 98]).1
        (lit "fpe-dev") [97]).2 ≠ .returned ([97, 0, 98], none) ∧
    toyNative.VeProtect exampleCtx.fpeProtect (List.replicate 300 97) 300
      = (0, List.replicate 300 97) ∧
    toyNative.VeAccess exampleCtx.fpeAccess (List.replicate 300 97) 300
      = (0, List.replicate 300 97) ∧
    (EncryptByID toyNative exampleWorld (lit "fpe-dev") (List.replicate 300 97)).2
      = .undefined := by
  decide

/-! ## The invariant of the registry -/

/-- The four calls of a destruction, spelled out. -/
theorem destroyCalls_eq (c : VoltageFPEContext) :
    destroyCalls c = [Call.VeDestroyFPE c.fpeProtect, Call.VeDestroyFPE c.fpeAccess,
      Call.VeDestroyLibCtx c.libctx, Call.free c.addr] := by
  simp [destroyCalls, Destroy_some, World.init]

/-- Every call of a destruction is a release on that context. -/
theorem destroyCalls_owner (c : VoltageFPEContext) (hc : CtxOK c) :
    ∀ x ∈ destroyCalls c, x.releaseOwner = some c.addr := by
  intro x hx
  obtain ⟨h1, h2, h3, -⟩ := hc
  rw [destroyCalls_eq] at hx
  simp only [List.mem_cons, List.mem_singleton, List.not_mem_nil, or_false] at hx
  rcases hx with rfl | rfl | rfl | rfl
  · simp [Call.releaseOwner, h2, h1]
  · simp [Call.releaseOwner, h3, h1]
  · simp [Call.releaseOwner, h1]
  · simp [Call.releaseOwner]

/-- The four calls of a destruction are four different calls. -/
theorem destroyCalls_nodup (c : VoltageFPEContext) (hc : CtxOK c) :
    (destroyCalls c).Nodup := by
  rw [destroyCalls_eq]
  have h4 := hc.2.2.2
  simp [h4]

/-- The loop of `DeleteAllFPEs` only extends the trace, by the destruction of each
entry in turn. -/
theorem foldl_Close (m : List (GoString × VoltageFPE)) (w : World) :
    m.foldl (fun acc e => e.2.Close acc) w = { w with trace := w.trace ++ closeCalls m } := by
  induction m generalizing w with
  | nil => simp [closeCalls]
  | cons e rest ih =>
    simp only [List.foldl_cons, ih, closeCalls, List.flatMap_cons]
    simp [VoltageFPE.Close, Destroy_some, destroyCalls_eq]

/-- `DeleteAllFPEs`, in one step. -/
theorem DeleteAllFPEs_eq (w : World) :
    DeleteAllFPEs w = ⟨[], w.next, w.trace ++ closeCalls w.fpeStore⟩ := by
  simp [DeleteAllFPEs, foldl_Close]

/-- A call of the loop belongs to the destruction of one of the entries. -/
theorem mem_closeCalls (m : List (GoString × VoltageFPE)) (x : Call) :
    x ∈ closeCalls m ↔ ∃ e ∈ m, x ∈ destroyCalls e.2.ctx := by
  simp [closeCalls, List.mem_flatMap]

/-- Over entries with different allocations the loop makes no call twice. -/
theorem closeCalls_nodup (m : List (GoString × VoltageFPE))
    (hok : ∀ e ∈ m, CtxOK e.2.ctx) (hnd : (m.map (fun e => e.2.ctx.addr)).Nodup) :
    (closeCalls m).Nodup := by
  induction m with
  | nil => simp [closeCalls]
  | cons e rest ih =>
    have hrest : (closeCalls rest).Nodup :=
      ih (fun e1 h1 => hok e1 (List.mem_cons_of_mem _ h1)) (List.nodup_cons.mp hnd).2
    have he := hok e (List.mem_cons_self _ _)
    show (destroyCalls e.2.ctx ++ closeCalls rest).Nodup
    refine List.nodup_append.mpr ⟨destroyCalls_nodup _ he, hrest, ?_⟩
    intro x hx hx1
    obtain ⟨e1, h1, hx2⟩ := (mem_closeCalls rest x).mp hx1
    have o1 := destroyCalls_owner _ he x hx
    have o2 := destroyCalls_owner _ (hok e1 (List.mem_cons_of_mem _ h1)) x hx2
    rw [o1] at o2
    have hmem : e.2.ctx.addr ∈ rest.map (fun e => e.2.ctx.addr) := by
      rw [Option.some.inj o2]
      exact List.mem_map_of_mem _ h1
    exact (List.nodup_cons.mp hnd).1 hmem

/-- The empty registry satisfies the invariant. -/
theorem WF_init : WF World.init := by
  simp [WF, World.init]

/-- The invariant survives a step that keeps the store, does not lower the
allocation counter, and adds only calls that release nothing. -/
theorem WF_extend (w w1 : World) (calls : List Call) (h : WF w)
    (hs : w1.fpeStore = w.fpeStore) (hn : w.next ≤ w1.next)
    (ht : w1.trace = w.trace ++ calls) (hc : ∀ x ∈ calls, x.releaseOwner = none) :
    WF w1 := by
  obtain ⟨k1, k2, k3, k4, k5⟩ := h
  refine ⟨by rw [hs]; exact k1, by rw [hs]; exact k2, ?_, ?_, ?_⟩
  · intro e he
    rw [hs] at he
    exact ⟨(k3 e he).1, lt_of_lt_of_le (k3 e he).2 hn⟩
  · intro x hx a ha
    rw [ht, List.mem_append] at hx
    rcases hx with hx | hx
    · obtain ⟨q1, q2⟩ := k4 x hx a ha
      exact ⟨lt_of_lt_of_le q1 hn, by rw [hs]; exact q2⟩
    · rw [hc x hx] at ha
      cases ha
  · intro x hx
    have hnot : x ∉ calls := fun hm => hx (hc x hm)
    rw [ht, List.count_append, List.count_eq_zero_of_not_mem hnot]
    exact k5 x hx

/-- The invariant survives the binding of a freshly created context. -/
theorem WF_bind (w w1 : World) (id : GoString) (fpe : VoltageFPE) (h : WF w1)
    (hok : CtxOK fpe.ctx) (ha : fpe.ctx.addr + 1 = w1.next)
    (hold : ∀ e ∈ w1.fpeStore, e.2.ctx.addr < fpe.ctx.addr)
    (htr : ∀ x ∈ w1.trace, ∀ a, x.releaseOwner = some a → a < fpe.ctx.addr)
    (hs : w.fpeStore = mapSet w1.fpeStore id fpe) (hn : w.next = w1.next)
    (ht : w.trace = w1.trace) :
    WF w := by
  obtain ⟨k1, k2, k3, k4, k5⟩ := h
  have hsub : (w1.fpeStore.filter (fun e => e.1 ≠ id)).Sublist w1.fpeStore :=
    List.filter_sublist _
  have hmem : ∀ e ∈ w1.fpeStore.filter (fun e => e.1 ≠ id), e ∈ w1.fpeStore :=
    fun e he => hsub.subset he
  refine ⟨?_, ?_, ?_, ?_, ?_⟩
  · rw [hs]
    simp only [mapSet, List.map_cons]
    refine List.nodup_cons.mpr ⟨?_, (hsub.map _).nodup k1⟩
    intro hin
    obtain ⟨e, he, hk⟩ := List.mem_map.mp hin
    have := (List.mem_filter.mp he).2
    simp [hk] at this
  · rw [hs]
    simp only [mapSet, List.map_cons]
    refine List.nodup_cons.mpr ⟨?_, (hsub.map _).nodup k2⟩
    intro hin
    obtain ⟨e, he, hk⟩ := List.mem_map.mp hin
    have := hold e (hmem e he)
    omega
  · intro e he
    rw [hs] at he
    simp only [mapSet, List.mem_cons] at he
    rcases he with rfl | he
    · refine ⟨hok, ?_⟩
      show fpe.ctx.addr < w.next
      omega
    · rw [hn]; exact k3 e (hmem e he)
  · intro x hx a hxa
    rw [ht] at hx
    obtain ⟨q1, q2⟩ := k4 x hx a hxa
    refine ⟨by rw [hn]; exact q1, ?_⟩
    intro e he
    rw [hs] at he
    simp only [mapSet, List.mem_cons] at he
    rcases he with rfl | he
    · have := htr x hx a hxa
      show fpe.ctx.addr ≠ a
      omega
    · exact q2 e (hmem e he)
  · intro x hx
    rw [ht]
    exact k5 x hx

/-- `RegisterFPE` keeps the invariant. -/
theorem WF_RegisterFPE (N : Native) (w : World) (id p t c i s f : GoString) (h : WF w) :
    WF (RegisterFPE N w id p t c i s f).1 := by
  have sp := Create_spec N w (C.CString p) (C.CString t) (C.CString c) (C.CString i)
    (C.CString s) (C.CString f)
  rw [← NewVoltageFPE_world] at sp
  obtain ⟨s1, s2, ⟨calls, s3, s4⟩, s5⟩ := sp
  have hnew : WF (NewVoltageFPE N w p t c i s f).1 :=
    WF_extend w _ calls h s1 (by omega) s3 s4
  by_cases hr : ∃ fpe, (NewVoltageFPE N w p t c i s f).2 = .returned fpe
  · obtain ⟨fpe, hfpe⟩ := hr
    obtain ⟨a1, a2⟩ := s5 fpe.ctx (NewVoltageFPE_returned N w _ _ _ _ _ _ fpe hfpe)
    rw [RegisterFPE_returned N w id p t c i s f fpe hfpe]
    refine WF_bind _ (NewVoltageFPE N w p t c i s f).1 id fpe hnew a2 (by omega) ?_ ?_
      (by simp [s1]) rfl rfl
    · intro e he
      rw [s1] at he
      rw [a1]
      exact (h.2.2.1 e he).2
    · intro x hx a hxa
      rw [s3, List.mem_append] at hx
      rw [a1]
      rcases hx with hx | hx
      · exact (h.2.2.2.1 x hx a hxa).1
      · rw [s4 x hx] at hxa
        cases hxa
  · rw [RegisterFPE_not_returned N w id p t c i s f (fun fpe hf => hr ⟨fpe, hf⟩)]
    exact hnew

/-- `EncryptByID` keeps the invariant. -/
theorem WF_EncryptByID (N : Native) (w : World) (id data : GoString) (h : WF w) :
    WF (EncryptByID N w id data).1 := by
  unfold EncryptByID
  cases hg : mapGet w.fpeStore id with
  | none => exact h
  | some fpe =>
    simp only [Protect_eq]
    refine WF_extend w _ _ h rfl (le_refl _) rfl ?_
    intro x hx
    simp only [List.mem_singleton] at hx
    subst hx
    rfl

/-- `DecryptByID` keeps the invariant. -/
theorem WF_DecryptByID (N : Native) (w : World) (id data : GoString) (h : WF w) :
    WF (DecryptByID N w id data).1 := by
  unfold DecryptByID
  cases hg : mapGet w.fpeStore id with
  | none => exact h
  | some fpe =>
    simp only [Access_eq]
    refine WF_extend w _ _ h rfl (le_refl _) rfl ?_
    intro x hx
    simp only [List.mem_singleton] at hx
    subst hx
    rfl

/-- In a state that satisfies the invariant, no call of the loop of
`DeleteAllFPEs` was made before. -/
theorem closeCalls_not_in_trace (w : World) (h : WF w) (x : Call)
    (hx : x ∈ closeCalls w.fpeStore) : x ∉ w.trace := by
  obtain ⟨e, he, hxe⟩ := (mem_closeCalls _ x).mp hx
  intro hin
  have ho := destroyCalls_owner _ (h.2.2.1 e he).1 x hxe
  exact (h.2.2.2.1 x hin _ ho).2 e he rfl

/-- `DeleteAllFPEs` keeps the invariant. -/
theorem WF_DeleteAllFPEs (w : World) (h : WF w) : WF (DeleteAllFPEs w) := by
  rw [DeleteAllFPEs_eq]
  have hnd := closeCalls_nodup w.fpeStore (fun e he => (h.2.2.1 e he).1) h.2.1
  refine ⟨by simp, by simp, by simp, ?_, ?_⟩
  · intro x hx a hxa
    refine ⟨?_, by simp⟩
    simp only [List.mem_append] at hx
    rcases hx with hx | hx
    · exact (h.2.2.2.1 x hx a hxa).1
    · obtain ⟨e, he, hxe⟩ := (mem_closeCalls _ x).mp hx
      have ho := destroyCalls_owner _ (h.2.2.1 e he).1 x hxe
      rw [ho] at hxa
      rw [← Option.some.inj hxa]
      exact (h.2.2.1 e he).2
  · intro x hx
    show (w.trace ++ closeCalls w.fpeStore).count x ≤ 1
    rw [List.count_append]
    by_cases hm : x ∈ closeCalls w.fpeStore
    · rw [List.count_eq_zero_of_not_mem (closeCalls_not_in_trace w h x hm)]
      have := List.nodup_iff_count_le_one.mp hnd x
      omega
    · rw [List.count_eq_zero_of_not_mem hm]
      exact h.2.2.2.2 x hx

/-- Every state of the registry satisfies the invariant. -/
theorem Reachable_WF (N : Native) (w : World) (h : Reachable N w) : WF w := by
  induction h with
  | init => exact WF_init
  | register id p t c i s f _ ih => exact WF_RegisterFPE N _ id p t c i s f ih
  | encrypt id data _ ih => exact WF_EncryptByID N _ id data ih
  | decrypt id data _ ih => exact WF_DecryptByID N _ id data ih
  | deleteAll _ ih => exact WF_DeleteAllFPEs _ ih

/-! ## Bulk teardown -/

/-- C4: in every state of the registry, after `DeleteAllFPEs()` the store is empty;
for every identifier and text `EncryptByID` and `DecryptByID` return the empty
string with the not-found error and change nothing; and for every handle that was
bound before the call, each of the four release calls of its destruction had not
been made before the call and occurs exactly once in the trace after it. -/
theorem DeleteAllFPEs_empties_registry (N : Native) (w : World) (h : Reachable N w) :
    (DeleteAllFPEs w).fpeStore = [] ∧
    (∀ id text : GoString,
      EncryptByID N (DeleteAllFPEs w) id text
        = (DeleteAllFPEs w, .returned ([], some (notFound id))) ∧
      DecryptByID N (DeleteAllFPEs w) id text
        = (DeleteAllFPEs w, .returned ([], some (notFound id)))) ∧
    (∀ e ∈ w.fpeStore, ∀ x ∈ destroyCalls e.2.ctx,
      w.trace.count x = 0 ∧ (DeleteAllFPEs w).trace.count x = 1) := by
  have hwf := Reachable_WF N w h
  have hnd := closeCalls_nodup w.fpeStore (fun e he => (hwf.2.2.1 e he).1) hwf.2.1
  refine ⟨by rw [DeleteAllFPEs_eq], ?_, ?_⟩
  · intro id text
    have hg : mapGet (DeleteAllFPEs w).fpeStore id = none := by
      rw [DeleteAllFPEs_eq]; rfl
    simp [EncryptByID, DecryptByID, hg]
  · intro e he x hx
    have hm : x ∈ closeCalls w.fpeStore := (mem_closeCalls _ x).mpr ⟨e, he, hx⟩
    have h0 : w.trace.count x = 0 :=
      List.count_eq_zero_of_not_mem (closeCalls_not_in_trace w hwf x hm)
    refine ⟨h0, ?_⟩
    rw [DeleteAllFPEs_eq]
    show (w.trace ++ closeCalls w.fpeStore).count x = 1
    rw [List.count_append, h0, List.count_eq_one_of_mem hnd hm]

/-- C4 on the registry holding `"fpe-dev"` and `"fpe-prod"`. -/
theorem DeleteAllFPEs_empties_registry_witness :
    Reachable toyNative twoWorld ∧
    ((DeleteAllFPEs twoWorld).fpeStore = [] ∧
    (∀ id text : GoString,
      EncryptByID toyNative (DeleteAllFPEs twoWorld) id text
        = (DeleteAllFPEs twoWorld, .returned ([], some (notFound id))) ∧
      DecryptByID toyNative (DeleteAllFPEs twoWorld) id text
        = (DeleteAllFPEs twoWorld, .returned ([], some (notFound id)))) ∧
    (∀ e ∈ twoWorld.fpeStore, ∀ x ∈ destroyCalls e.2.ctx,
      twoWorld.trace.count x = 0 ∧ (DeleteAllFPEs twoWorld).trace.count x = 1)) :=
  have hr : Reachable toyNative twoWorld :=
    Reachable.register _ _ _ _ _ _ _ (Reachable.register _ _ _ _ _ _ _ Reachable.init)
  ⟨hr, DeleteAllFPEs_empties_registry toyNative twoWorld hr⟩

/-- C10: in every state of the registry, a second `DeleteAllFPEs()` right after the
first changes nothing: the state after the two calls is the state after one, the
store is empty, the second call adds no native call to the trace, and after the
two calls no release call occurs twice in the trace. -/
theorem DeleteAllFPEs_idempotent (N : Native) (w : World) (h : Reachable N w) :
    DeleteAllFPEs (DeleteAllFPEs w) = DeleteAllFPEs w ∧
    (DeleteAllFPEs (DeleteAllFPEs w)).fpeStore = [] ∧
    (DeleteAllFPEs (DeleteAllFPEs w)).trace = (DeleteAllFPEs w).trace ∧
    (∀ x : Call, x.releaseOwner ≠ none →
      (DeleteAllFPEs (DeleteAllFPEs w)).trace.count x ≤ 1) := by
  have hwf := WF_DeleteAllFPEs w (Reachable_WF N w h)
  have heq : DeleteAllFPEs (DeleteAllFPEs w) = DeleteAllFPEs w := by
    rw [DeleteAllFPEs_eq (DeleteAllFPEs w), DeleteAllFPEs_eq w]
    simp [closeCalls]
  refine ⟨heq, ?_, by rw [heq], ?_⟩
  · rw [heq, DeleteAllFPEs_eq]
  · intro x hx
    rw [heq]
    exact hwf.2.2.2.2 x hx

/-- C10 on the registry holding `"fpe-dev"` and `"fpe-prod"`. -/
theorem DeleteAllFPEs_idempotent_witness :
    Reachable toyNative twoWorld ∧
    (DeleteAllFPEs (DeleteAllFPEs twoWorld) = DeleteAllFPEs twoWorld ∧
    (DeleteAllFPEs (DeleteAllFPEs twoWorld)).fpeStore = [] ∧
    (DeleteAllFPEs (DeleteAllFPEs twoWorld)).trace = (DeleteAllFPEs twoWorld).trace ∧
    (∀ x : Call, x.releaseOwner ≠ none →
      (DeleteAllFPEs (DeleteAllFPEs twoWorld)).trace.count x ≤ 1)) :=
  have hr : Reachable toyNative twoWorld :=
    Reachable.register _ _ _ _ _ _ _ (Reachable.register _ _ _ _ _ _ _ Reachable.init)
  ⟨hr, DeleteAllFPEs_idempotent toyNative twoWorld hr⟩

end Voltage
